/-
Verification development for the KDD19 BERT fine-tuning notebook
(`06_bert/bert.ipynb`).  The notebook orchestrates calls into MXNet /
GluonNLP: it seeds the random number generators, loads the pre-trained
BERT base model from the model zoo, transforms the MRPC sentence-pair
dataset with a tokenizer-based transform, and runs a fine-tuning loop.

The notebook's own helper package (`from bert import *`: `BERTClassifier`,
`dataset.BERTDatasetTransform`, `dataset.MRPCDataset`) ships with the
repository but is not part of the provided sources, so those helpers are
modelled from the specification and from the behaviour the notebook
documents; everything visible in the notebook cells (seeds, constants,
call order, the training loop) is embedded directly from the source.
-/
import Mathlib

namespace KDD19Bert

/-! ## Vocabulary and tokenizer

`nlp.model.get_model` returns the vocabulary together with the model; the
tokenizer (`nlp.data.BERTTokenizer(vocabulary, lower=True)`) maps a raw
sentence to a list of sub-word token ids.  We keep the tokenization map
abstract and record only the special-token ids the transform inserts. -/

/-- The special-token ids of a BERT vocabulary: the classification token
`[CLS]`, the separator token `[SEP]`, and the padding token. -/
structure Vocab where
  clsId : Nat
  sepId : Nat
  padId : Nat

/-- A tokenizer maps a raw sentence to its list of sub-word token ids
(vocabulary lookup included, case folding already applied). -/
structure Tokenizer where
  toIds : String → List Nat

/-! ## The dataset transform

Modelled from the spec: `BERTDatasetTransform` is the dataset/tokenizer
transform of the repository's helper package (not among the provided
sources).  Per the spec and the notebook it tokenizes the two input
sequences, inserts `[CLS]` and `[SEP]`, generates segment ids indicating
whether a token belongs to the first or to the second sequence, generates
the valid length, pads both id arrays to the maximum sequence length, and
encodes the label by its index in the label list as an int32. -/

/-- Modelled from the spec: the sequence-pair truncation used by the
transform.  While the combined token count exceeds `maxTokens`, the last
token of the currently longer sequence is dropped.  `fuel` bounds the
number of pops; callers pass the combined initial length. -/
def truncateSeqPair (maxTokens : Nat) : Nat → List Nat × List Nat → List Nat × List Nat
  | 0, ab => ab
  | fuel + 1, (a, b) =>
    if a.length + b.length ≤ maxTokens then (a, b)
    else if b.length < a.length then truncateSeqPair maxTokens fuel (a.dropLast, b)
    else truncateSeqPair maxTokens fuel (a, b.dropLast)

/-- The truncated token-id lists of the two sentences of a pair: room is
reserved for the three special tokens `[CLS]`, `[SEP]`, `[SEP]`. -/
def truncatedPair (tok : Tokenizer) (maxLen : Nat) (sa sb : String) :
    List Nat × List Nat :=
  let a := tok.toIds sa
  let b := tok.toIds sb
  truncateSeqPair (maxLen - 3) (a.length + b.length) (a, b)

/-- Modelled from the spec: the sentence-pair part of `BERTDatasetTransform`.
It emits the padded token-id array, the valid length, and the padded
segment-id array: tokens are `[CLS] a [SEP] b [SEP]` followed by padding,
segment ids are `0` for the `[CLS]`+first-sequence+`[SEP]` block and `1`
for the second-sequence+`[SEP]` block, `0` again on the padding. -/
def bertSentencePairTransform (v : Vocab) (tok : Tokenizer) (maxLen : Nat)
    (sa sb : String) : List Nat × Nat × List Nat :=
  let ab := truncatedPair tok maxLen sa sb
  let ta := ab.1
  let tb := ab.2
  let validLen := ta.length + tb.length + 3
  let tokens := v.clsId :: ta ++ v.sepId :: tb ++ [v.sepId]
  let segments : List Nat :=
    List.replicate (ta.length + 2) 0 ++ List.replicate (tb.length + 1) 1
  (tokens ++ List.replicate (maxLen - validLen) v.padId,
   validLen,
   segments ++ List.replicate (maxLen - validLen) 0)

/-- Modelled from the spec: the label is encoded by its index in the label
list (`labels=all_labels`, `label_dtype=int32`). -/
def encodeLabel (labels : List String) (s : String) : Int :=
  (labels.indexOf s : Nat)

/-- Modelled from the spec: `BERTDatasetTransform` applied to one raw
example `(sentence a, sentence b, label)`.  It emits exactly four fields,
in this order: token ids, valid length, segment ids, label. -/
def bertDatasetTransform (v : Vocab) (tok : Tokenizer) (maxLen : Nat)
    (labels : List String) (ex : String × String × String) :
    List Nat × Nat × List Nat × Int :=
  let core := bertSentencePairTransform v tok maxLen ex.1 ex.2.1
  (core.1, core.2.1, core.2.2, encodeLabel labels ex.2.2)

/-- `max_len = 128`, the maximum sequence length of the notebook. -/
def max_len : Nat := 128

/-- `all_labels = ["0", "1"]`, the label space of the notebook. -/
def all_labels : List String := ["0", "1"]

/-- The input the training loop feeds to the model on each batch:
`model(token_ids, segment_ids, valid_length)`. -/
structure ModelInput where
  tokenIds : List Nat
  segmentIds : List Nat
  validLength : Nat
  deriving DecidableEq

/-- The training loop unpacks each batch as
`(token_ids, valid_length, segment_ids, label)` and feeds the first three
to the model and the label to the loss. -/
def unpackBatch (b : List Nat × Nat × List Nat × Int) : ModelInput × Int :=
  (⟨b.1, b.2.2.1, b.2.1⟩, b.2.2.2)

/-! ### Indexing helpers -/

theorem getD_replicate_lt {α : Type} (a d : α) {i n : Nat} (h : i < n) :
    (List.replicate n a).getD i d = a := by
  induction n generalizing i with
  | zero => omega
  | succ m ih =>
    cases i with
    | zero => simp [List.replicate_succ]
    | succ j =>
      simp only [List.replicate_succ, List.getD_cons_succ]
      exact ih (by omega)

theorem truncateSeqPair_sum_le (maxTokens : Nat) :
    ∀ (fuel : Nat) (a b : List Nat),
      (truncateSeqPair maxTokens fuel (a, b)).1.length +
        (truncateSeqPair maxTokens fuel (a, b)).2.length ≤
      max maxTokens (a.length + b.length - fuel) := by
  intro fuel
  induction fuel with
  | zero => intro a b; simp only [truncateSeqPair]; omega
  | succ f ih =>
    intro a b
    rw [truncateSeqPair]
    by_cases h : a.length + b.length ≤ maxTokens
    · rw [if_pos h]; simpa using Or.inl h
    · rw [if_neg h]
      by_cases hba : b.length < a.length
      · rw [if_pos hba]
        have ha : a ≠ [] := by
          intro hnil; rw [hnil] at hba; simp at hba
        have hlen : a.dropLast.length = a.length - 1 := by
          simp [List.length_dropLast]
        have := ih a.dropLast b
        rw [hlen] at this
        omega
      · rw [if_neg hba]
        have hb : b ≠ [] := by
          intro hnil
          rw [hnil] at h hba
          simp only [List.length_nil] at h hba
          omega
        have hlen : b.dropLast.length = b.length - 1 := by
          simp [List.length_dropLast]
        have := ih a b.dropLast
        rw [hlen] at this
        omega

theorem truncatedPair_sum_le (tok : Tokenizer) (maxLen : Nat) (sa sb : String) :
    (truncatedPair tok maxLen sa sb).1.length +
      (truncatedPair tok maxLen sa sb).2.length ≤ maxLen - 3 := by
  unfold truncatedPair
  have := truncateSeqPair_sum_le (maxLen - 3)
    ((tok.toIds sa).length + (tok.toIds sb).length) (tok.toIds sa) (tok.toIds sb)
  simpa using this

theorem getD_append_cons {α : Type} (L1 L2 : List α) (x d : α) :
    (L1 ++ x :: L2).getD L1.length d = x := by
  rw [List.getD_append_right _ _ _ _ (Nat.le_refl _)]
  simp

theorem bertSentencePairTransform_tokens (v : Vocab) (tok : Tokenizer)
    (maxLen : Nat) (sa sb : String) :
    (bertSentencePairTransform v tok maxLen sa sb).1 =
      [v.clsId] ++ (truncatedPair tok maxLen sa sb).1 ++ [v.sepId] ++
      (truncatedPair tok maxLen sa sb).2 ++ [v.sepId] ++
      List.replicate (maxLen - ((truncatedPair tok maxLen sa sb).1.length +
        (truncatedPair tok maxLen sa sb).2.length + 3)) v.padId := by
  simp [bertSentencePairTransform, List.append_assoc]

theorem bertSentencePairTransform_validLen (v : Vocab) (tok : Tokenizer)
    (maxLen : Nat) (sa sb : String) :
    (bertSentencePairTransform v tok maxLen sa sb).2.1 =
      (truncatedPair tok maxLen sa sb).1.length +
        (truncatedPair tok maxLen sa sb).2.length + 3 := rfl

theorem bertSentencePairTransform_segments (v : Vocab) (tok : Tokenizer)
    (maxLen : Nat) (sa sb : String) :
    (bertSentencePairTransform v tok maxLen sa sb).2.2 =
      List.replicate ((truncatedPair tok maxLen sa sb).1.length + 2) 0 ++
      List.replicate ((truncatedPair tok maxLen sa sb).2.length + 1) 1 ++
      List.replicate (maxLen - ((truncatedPair tok maxLen sa sb).1.length +
        (truncatedPair tok maxLen sa sb).2.length + 3)) 0 := by
  simp [bertSentencePairTransform, List.append_assoc]

/-- Concrete vocabulary matching the special-token ids visible in the
notebook output: `[CLS] = 2`, `[SEP] = 3`, padding token id `1`. -/
def sampleVocab : Vocab := ⟨2, 3, 1⟩

/-- Concrete tokenizer used to instantiate witnesses: each character
becomes one sub-word token with id 5. -/
def sampleTokenizer : Tokenizer := ⟨fun s => List.replicate s.length 5⟩

/-- Claim C8: for every transformed example, the token-id array and the
segment-id array each have length exactly `max_len = 128`, the valid
length satisfies `0 < valid length ≤ 128`, and every position at index
`≥` the valid length holds the padding token id, with segment id 0
there. -/
theorem transform_pads_to_max_len (v : Vocab) (tok : Tokenizer) (sa sb : String) :
    (bertSentencePairTransform v tok max_len sa sb).1.length = 128 ∧
    (bertSentencePairTransform v tok max_len sa sb).2.2.length = 128 ∧
    0 < (bertSentencePairTransform v tok max_len sa sb).2.1 ∧
    (bertSentencePairTransform v tok max_len sa sb).2.1 ≤ 128 ∧
    (∀ i, (bertSentencePairTransform v tok max_len sa sb).2.1 ≤ i → i < 128 →
      (bertSentencePairTransform v tok max_len sa sb).1.getD i 0 = v.padId ∧
      (bertSentencePairTransform v tok max_len sa sb).2.2.getD i 1 = 0) := by
  have hsum := truncatedPair_sum_le tok max_len sa sb
  have h125 : max_len - 3 = 125 := rfl
  rw [h125] at hsum
  rw [bertSentencePairTransform_tokens, bertSentencePairTransform_validLen,
    bertSentencePairTransform_segments]
  set ta := (truncatedPair tok max_len sa sb).1
  set tb := (truncatedPair tok max_len sa sb).2
  have hml : max_len = 128 := rfl
  refine ⟨?_, ?_, by omega, by omega, ?_⟩
  · simp [hml]
    omega
  · simp [hml]
    omega
  · intro i h1 h2
    constructor
    · have hlen :
          ([v.clsId] ++ ta ++ [v.sepId] ++ tb ++ [v.sepId]).length =
            ta.length + tb.length + 3 := by
        simp; omega
      rw [show [v.clsId] ++ ta ++ [v.sepId] ++ tb ++ [v.sepId] ++
            List.replicate (max_len - (ta.length + tb.length + 3)) v.padId =
          ([v.clsId] ++ ta ++ [v.sepId] ++ tb ++ [v.sepId]) ++
            List.replicate (max_len - (ta.length + tb.length + 3)) v.padId by
        simp [List.append_assoc]]
      rw [List.getD_append_right _ _ _ _ (by rw [hlen]; omega)]
      rw [hlen]
      exact getD_replicate_lt _ _ (by simp [hml] at h2 ⊢; omega)
    · rw [show List.replicate (ta.length + 2) 0 ++
            List.replicate (tb.length + 1) 1 ++
            List.replicate (max_len - (ta.length + tb.length + 3)) 0 =
          (List.replicate (ta.length + 2) 0 ++ List.replicate (tb.length + 1) 1) ++
            List.replicate (max_len - (ta.length + tb.length + 3)) 0 by
        simp [List.append_assoc]]
      have hlen2 :
          (List.replicate (ta.length + 2) (0 : Nat) ++
            List.replicate (tb.length + 1) 1).length = ta.length + tb.length + 3 := by
        simp; omega
      rw [List.getD_append_right _ _ _ _ (by rw [hlen2]; omega)]
      rw [hlen2]
      exact getD_replicate_lt _ _ (by simp [hml] at h2 ⊢; omega)

/-- Witness for C8 at a concrete sentence pair and index. -/
theorem transform_pads_to_max_len_witness :
    (bertSentencePairTransform sampleVocab sampleTokenizer max_len "ab" "c").1.getD 10 0 =
        sampleVocab.padId ∧
    (bertSentencePairTransform sampleVocab sampleTokenizer max_len "ab" "c").2.2.getD 10 1 = 0 :=
  (transform_pads_to_max_len sampleVocab sampleTokenizer "ab" "c").2.2.2.2 10
    (by decide) (by decide)

/-- Claim C4: within the valid length, the segment ids encode sentence
membership: the leading `[CLS]`, the tokens of the first sequence and its
trailing `[SEP]` (the first `la + 2` positions, where `la` is the length of
the truncated first sequence) all carry segment id 0, and the tokens of the
second sequence together with its trailing `[SEP]` (positions `la + 2` up
to the valid length) all carry segment id 1; the `[CLS]`/`[SEP]` boundary
positions indeed hold the special token ids. -/
theorem segment_ids_encode_sentence_membership (v : Vocab) (tok : Tokenizer)
    (maxLen : Nat) (sa sb : String) :
    (bertSentencePairTransform v tok maxLen sa sb).1.getD 0 0 = v.clsId ∧
    (bertSentencePairTransform v tok maxLen sa sb).1.getD
        ((truncatedPair tok maxLen sa sb).1.length + 1) 0 = v.sepId ∧
    (bertSentencePairTransform v tok maxLen sa sb).1.getD
        ((truncatedPair tok maxLen sa sb).1.length +
         (truncatedPair tok maxLen sa sb).2.length + 2) 0 = v.sepId ∧
    (∀ i, i < (truncatedPair tok maxLen sa sb).1.length + 2 →
      (bertSentencePairTransform v tok maxLen sa sb).2.2.getD i 1 = 0) ∧
    (∀ i, (truncatedPair tok maxLen sa sb).1.length + 2 ≤ i →
      i < (bertSentencePairTransform v tok maxLen sa sb).2.1 →
      (bertSentencePairTransform v tok maxLen sa sb).2.2.getD i 0 = 1) := by
  rw [bertSentencePairTransform_tokens, bertSentencePairTransform_validLen,
    bertSentencePairTransform_segments]
  set ta := (truncatedPair tok maxLen sa sb).1
  set tb := (truncatedPair tok maxLen sa sb).2
  refine ⟨?_, ?_, ?_, ?_, ?_⟩
  · simp only [List.append_assoc]
    have h0 : (0 : Nat) < ([v.clsId] : List Nat).length := by
      simp only [List.length_cons, List.length_nil]; omega
    rw [List.getD_append _ _ _ _ h0]
    rfl
  · rw [show [v.clsId] ++ ta ++ [v.sepId] ++ tb ++ [v.sepId] ++
          List.replicate (maxLen - (ta.length + tb.length + 3)) v.padId =
        ([v.clsId] ++ ta) ++ v.sepId :: (tb ++ v.sepId ::
          List.replicate (maxLen - (ta.length + tb.length + 3)) v.padId) from by
      simp [List.append_assoc]]
    rw [show ta.length + 1 = ([v.clsId] ++ ta).length from by
      simp only [List.length_append, List.length_cons, List.length_nil]; omega]
    exact getD_append_cons _ _ _ _
  · rw [show [v.clsId] ++ ta ++ [v.sepId] ++ tb ++ [v.sepId] ++
          List.replicate (maxLen - (ta.length + tb.length + 3)) v.padId =
        ([v.clsId] ++ ta ++ [v.sepId] ++ tb) ++ v.sepId ::
          List.replicate (maxLen - (ta.length + tb.length + 3)) v.padId from by
      simp [List.append_assoc]]
    rw [show ta.length + tb.length + 2 = ([v.clsId] ++ ta ++ [v.sepId] ++ tb).length from by
      simp only [List.length_append, List.length_cons, List.length_nil]; omega]
    exact getD_append_cons _ _ _ _
  · intro i hi
    simp only [List.append_assoc]
    have h0 : i < (List.replicate (ta.length + 2) (0 : Nat)).length := by
      simp only [List.length_replicate]; omega
    rw [List.getD_append _ _ _ _ h0]
    exact getD_replicate_lt _ _ hi
  · intro i h1 h2
    simp only [List.append_assoc]
    have h0 : (List.replicate (ta.length + 2) (0 : Nat)).length ≤ i := by
      simp only [List.length_replicate]; omega
    rw [List.getD_append_right _ _ _ _ h0]
    simp only [List.length_replicate]
    have h0b : i - (ta.length + 2) < (List.replicate (tb.length + 1) (1 : Nat)).length := by
      simp only [List.length_replicate]; omega
    rw [List.getD_append _ _ _ _ h0b]
    exact getD_replicate_lt _ _ (by omega)

/-- Witness for C4 at a concrete sentence pair: for `"ab"`/`"c"` the
truncated first sequence has length 2, so position 1 is in the first
segment and position 5 is the second sentence's trailing `[SEP]`. -/
theorem segment_ids_encode_sentence_membership_witness :
    (bertSentencePairTransform sampleVocab sampleTokenizer max_len "ab" "c").2.2.getD 1 1 = 0 ∧
    (bertSentencePairTransform sampleVocab sampleTokenizer max_len "ab" "c").2.2.getD 5 0 = 1 :=
  ⟨(segment_ids_encode_sentence_membership sampleVocab sampleTokenizer max_len
      "ab" "c").2.2.2.1 1 (by decide),
   (segment_ids_encode_sentence_membership sampleVocab sampleTokenizer max_len
      "ab" "c").2.2.2.2 5 (by decide) (by decide)⟩

/-! ## The classifier model

Modelled from the spec: `bert.BERTClassifier` (from the repository's
helper package, not among the provided sources) uses the BERT base model
to encode the sentence representation, followed by a dense layer with
`num_classes` output units for classification.  The notebook constructs it
with `num_classes=2, dropout=0.1` and initializes only the classifier
layer from `mx.init.Normal(0.02)`; the encoder keeps the pre-trained
checkpoint parameters. -/

/-- Where a parameter block's initial values come from. -/
inductive ParamSource where
  | pretrainedCheckpoint
  | normalInit (sigma : ℚ)
  deriving DecidableEq

/-- Configuration of the classifier attached to the BERT base model. -/
structure BERTClassifierModel where
  numClasses : Nat
  dropout : ℚ
  encoderSource : ParamSource
  classifierSource : ParamSource
  deriving DecidableEq

/-- `model = bert.BERTClassifier(bert_base, num_classes=2, dropout=0.1)`
with `model.classifier.initialize(init=mx.init.Normal(0.02))`: the encoder
comes from the pre-trained checkpoint, only the classifier layer is
freshly initialized. -/
def notebookModel : BERTClassifierModel :=
  { numClasses := 2, dropout := 1/10,
    encoderSource := ParamSource.pretrainedCheckpoint,
    classifierSource := ParamSource.normalInit (2/100) }

/-- Dot product of a weight row with the pooled representation. -/
def dotProd (w x : List ℚ) : ℚ :=
  (w.zip x).foldl (fun acc p => acc + p.1 * p.2) 0

/-- The dense classification layer: one output score per class. -/
def classifierScores (m : BERTClassifierModel) (w : Nat → List ℚ) (b : Nat → ℚ)
    (pooled : List ℚ) : List ℚ :=
  (List.range m.numClasses).map (fun i => dotProd (w i) pooled + b i)

/-- Claim C7: the classification task is binary — the classifier outputs
scores over exactly 2 classes, the label space is exactly `"0"` and `"1"`
(encoded as the integers 0 and 1), and only the classifier layer is
freshly initialized from `Normal(0.02)` while the encoder parameters come
from the pre-trained checkpoint. -/
theorem binary_classification_setup (w : Nat → List ℚ) (b : Nat → ℚ)
    (pooled : List ℚ) :
    (classifierScores notebookModel w b pooled).length = 2 ∧
    notebookModel.numClasses = 2 ∧
    all_labels = ["0", "1"] ∧
    encodeLabel all_labels "0" = 0 ∧
    encodeLabel all_labels "1" = 1 ∧
    notebookModel.classifierSource = ParamSource.normalInit (2/100) ∧
    notebookModel.encoderSource = ParamSource.pretrainedCheckpoint := by
  refine ⟨?_, rfl, rfl, by decide, by decide, rfl, rfl⟩
  simp [classifierScores, notebookModel]

/-- Claim C3: the transform emits, for every raw example, exactly a
4-tuple whose components are, in order: the padded token-id array, the
valid length, the padded segment-id array, and the encoded label; and the
training loop unpacks a batch element in exactly that order, feeding the
first component to the model as token ids, the third as segment ids, the
second as valid length, and the fourth to the loss as the label. -/
theorem transform_emits_four_fields_in_loop_order (v : Vocab) (tok : Tokenizer)
    (maxLen : Nat) (labels : List String) (ex : String × String × String) :
    bertDatasetTransform v tok maxLen labels ex =
      ((bertSentencePairTransform v tok maxLen ex.1 ex.2.1).1,
       (bertSentencePairTransform v tok maxLen ex.1 ex.2.1).2.1,
       (bertSentencePairTransform v tok maxLen ex.1 ex.2.1).2.2,
       encodeLabel labels ex.2.2) ∧
    (unpackBatch (bertDatasetTransform v tok maxLen labels ex)).1.tokenIds =
      (bertSentencePairTransform v tok maxLen ex.1 ex.2.1).1 ∧
    (unpackBatch (bertDatasetTransform v tok maxLen labels ex)).1.segmentIds =
      (bertSentencePairTransform v tok maxLen ex.1 ex.2.1).2.2 ∧
    (unpackBatch (bertDatasetTransform v tok maxLen labels ex)).1.validLength =
      (bertSentencePairTransform v tok maxLen ex.1 ex.2.1).2.1 ∧
    (unpackBatch (bertDatasetTransform v tok maxLen labels ex)).2 =
      encodeLabel labels ex.2.2 :=
  ⟨rfl, rfl, rfl, rfl, rfl⟩

/-! ## Batching and the data loader

The notebook builds
`train_sampler = nlp.data.FixedBucketSampler(lengths=[int(item[1]) for item in data_train], batch_size=batch_size, shuffle=True)`
and
`bert_dataloader = mx.gluon.data.DataLoader(data_train, batch_sampler=train_sampler)`. -/

/-- `batch_size = 32`. -/
def batch_size : Nat := 32

/-- The configuration of the `FixedBucketSampler` the notebook creates. -/
structure FixedBucketSamplerCfg where
  lengths : List Nat
  batchSize : Nat
  shuffle : Bool
  deriving DecidableEq

/-- The batch sampler of the notebook: bucket lengths are the valid
lengths (`int(item[1])`, the second element of each transformed example),
batch size 32, shuffling on. -/
def mkTrainSampler (data : List (List Nat × Nat × List Nat × Int)) :
    FixedBucketSamplerCfg :=
  { lengths := data.map (fun item => item.2.1),
    batchSize := batch_size,
    shuffle := true }

/-- The configuration of the `DataLoader` the notebook creates: it holds
the transformed dataset and iterates it only through `batch_sampler`. -/
structure DataLoaderCfg where
  datasetLen : Nat
  batchSampler : FixedBucketSamplerCfg
  deriving DecidableEq

/-- `bert_dataloader = DataLoader(data_train, batch_sampler=train_sampler)`. -/
def mkBertDataloader (data : List (List Nat × Nat × List Nat × Int)) :
    DataLoaderCfg :=
  { datasetLen := data.length, batchSampler := mkTrainSampler data }

/-- Modelled from the spec: `FixedBucketSampler` (of the external NLP
library) groups samples into buckets; the bucket a sample lands in is
determined by its length, namely the smallest bucket key that is at least
the sample's length. -/
def bucketKeyFor (keys : List Nat) (len : Nat) : Option Nat :=
  (keys.filter (fun k => len ≤ k)).foldr
    (fun k acc => match acc with
      | none => some k
      | some m => some (min k m)) none

/-- The bucket assigned to sample `i` by the sampler configuration. -/
def sampleBucket (cfg : FixedBucketSamplerCfg) (keys : List Nat) (i : Nat) :
    Option Nat :=
  bucketKeyFor keys (cfg.lengths.getD i 0)

/-- Claim C6: the batch sampler is keyed on each example's valid length
(the second element of each transformed example), forms shuffled batches
of size 32, and the data loader iterates the dataset exclusively through
this batch sampler; bucket membership is a function of the valid length
only. -/
theorem bucket_sampler_config_and_keying
    (data : List (List Nat × Nat × List Nat × Int)) :
    (mkTrainSampler data).lengths = data.map (fun item => item.2.1) ∧
    (mkTrainSampler data).batchSize = 32 ∧
    (mkTrainSampler data).shuffle = true ∧
    (mkBertDataloader data).batchSampler = mkTrainSampler data ∧
    ∀ keys i j,
      (mkTrainSampler data).lengths.getD i 0 =
        (mkTrainSampler data).lengths.getD j 0 →
      sampleBucket (mkTrainSampler data) keys i =
        sampleBucket (mkTrainSampler data) keys j := by
  refine ⟨rfl, rfl, rfl, rfl, ?_⟩
  intro keys i j h
  unfold sampleBucket
  rw [h]

/-- Witness for C6: two samples with the same valid length land in the
same bucket. -/
theorem bucket_sampler_config_and_keying_witness :
    sampleBucket (mkTrainSampler [([], 5, [], 0), ([], 5, [], 0)]) [4, 8] 0 =
      sampleBucket (mkTrainSampler [([], 5, [], 0), ([], 5, [], 0)]) [4, 8] 1 :=
  (bucket_sampler_config_and_keying [([], 5, [], 0), ([], 5, [], 0)]).2.2.2.2
    [4, 8] 0 1 (by decide)

/-! ## Parameters and the trainer step

`params = [p for p in model.collect_params().values() if p.grad_req != 'null']`
collects the differentiable parameters; each batch then runs
`ls.backward()`, `trainer.allreduce_grads()`,
`nlp.utils.clip_grad_global_norm(params, 1)` and `trainer.update(1)`.
A parameter whose `grad_req` is `'null'` gets no gradient, is not in
`params` (hence excluded from clipping) and is skipped by the trainer
update; every other parameter is clipped and updated each step. -/

/-- One model parameter: its value, its gradient buffer, and its
`grad_req` mode (`'null'` means no gradient is computed). -/
structure Param where
  value : Int
  grad : Int
  gradReq : String
  deriving DecidableEq

/-- Map with the position of each element, used to model per-parameter
gradients. -/
def mapWithIndex {α : Type} (f : Nat → α → α) : Nat → List α → List α
  | _, [] => []
  | i, p :: rest => f i p :: mapWithIndex f (i + 1) rest

/-- `ls.backward()`: the gradient `g i` is written into parameter `i`
unless its `grad_req` is `'null'`. -/
def backwardPass (g : Nat → Int) (ps : List Param) : List Param :=
  mapWithIndex (fun i p => if p.gradReq = "null" then p else { p with grad := g i }) 0 ps

/-- `trainer.allreduce_grads()`: with a single context this leaves the
gradients unchanged. -/
def allreduceGrads (ps : List Param) : List Param := ps

/-- `nlp.utils.clip_grad_global_norm(params, 1)`: the gradients of the
differentiable parameters (exactly those whose `grad_req` is not
`'null'`) are rescaled by the clipping map `c`; `'null'` parameters are
not in the clipped list and stay untouched. -/
def clipGradGlobalNorm (c : Int → Int) (ps : List Param) : List Param :=
  ps.map (fun p => if p.gradReq = "null" then p else { p with grad := c p.grad })

/-- `trainer.update(1)`: every parameter held by the trainer whose
`grad_req` is not `'null'` is updated from its (clipped) gradient by the
optimizer map `u`; `'null'` parameters are skipped. -/
def trainerUpdate (u : Int → Int → Int) (ps : List Param) : List Param :=
  ps.map (fun p => if p.gradReq = "null" then p else { p with value := u p.value p.grad })

/-- `[p for p in model.collect_params().values() if p.grad_req != 'null']`. -/
def collectDifferentiable (ps : List Param) : List Param :=
  ps.filter (fun p => !(p.gradReq == "null"))

/-- One full trainer step for one batch, in source order. -/
def oneBatchParamStep (g : Nat → Int) (c : Int → Int) (u : Int → Int → Int)
    (ps : List Param) : List Param :=
  trainerUpdate u (clipGradGlobalNorm c (allreduceGrads (backwardPass g ps)))

/-- The whole fine-tuning run over a list of per-batch gradient maps. -/
def trainParams (c : Int → Int) (u : Int → Int → Int) :
    List (Nat → Int) → List Param → List Param
  | [], ps => ps
  | g :: rest, ps => trainParams c u rest (oneBatchParamStep g c u ps)

theorem mapWithIndex_length {α : Type} (f : Nat → α → α) :
    ∀ (k : Nat) (ps : List α), (mapWithIndex f k ps).length = ps.length := by
  intro k ps
  induction ps generalizing k with
  | nil => rfl
  | cons p rest ih => simp [mapWithIndex, ih]

theorem mapWithIndex_getD {α : Type} (f : Nat → α → α) :
    ∀ (ps : List α) (k i : Nat) (d : α), i < ps.length →
      (mapWithIndex f k ps).getD i d = f (k + i) (ps.getD i d) := by
  intro ps
  induction ps with
  | nil => intro k i d h; simp at h
  | cons p rest ih =>
    intro k i d h
    cases i with
    | zero => simp [mapWithIndex]
    | succ j =>
      simp only [mapWithIndex, List.getD_cons_succ]
      rw [ih (k + 1) j d (by simp at h; omega)]
      congr 1
      omega

theorem getD_list_map {α : Type} (f : α → α) (ps : List α) (i : Nat) (d : α)
    (h : i < ps.length) : (ps.map f).getD i d = f (ps.getD i d) := by
  rw [List.getD_eq_getElem _ _ (by simpa using h), List.getD_eq_getElem _ _ h]
  simp

/-- Pointwise behaviour of one trainer step: a `'null'` parameter is left
entirely unchanged; any other parameter first receives the gradient
`g i` (backward), which is then rescaled by `c` (clipping), and its value
is finally updated by `u` from the clipped gradient. -/
theorem oneBatchParamStep_getD (g : Nat → Int) (c : Int → Int)
    (u : Int → Int → Int) (ps : List Param) (i : Nat) (d : Param)
    (h : i < ps.length) :
    (oneBatchParamStep g c u ps).getD i d =
      if (ps.getD i d).gradReq = "null" then ps.getD i d
      else { value := u (ps.getD i d).value (c (g i)),
             grad := c (g i),
             gradReq := (ps.getD i d).gradReq } := by
  unfold oneBatchParamStep trainerUpdate clipGradGlobalNorm allreduceGrads
  have hlb : (backwardPass g ps).length = ps.length := by
    unfold backwardPass; exact mapWithIndex_length _ _ _
  rw [getD_list_map _ _ _ _ (by simp [hlb, h])]
  rw [getD_list_map _ _ _ _ (by simp [hlb, h])]
  unfold backwardPass
  rw [mapWithIndex_getD _ _ _ _ _ h]
  simp only [Nat.zero_add]
  obtain ⟨pv, pg, pr⟩ := ps.getD i d
  by_cases hr : pr = "null"
  · simp [hr]
  · simp [hr]

theorem trainParams_null_unchanged (c : Int → Int) (u : Int → Int → Int) :
    ∀ (gs : List (Nat → Int)) (ps : List Param) (i : Nat) (d : Param),
      i < ps.length → (ps.getD i d).gradReq = "null" →
      (trainParams c u gs ps).getD i d = ps.getD i d := by
  intro gs
  induction gs with
  | nil => intro ps i d _ _; rfl
  | cons g rest ih =>
    intro ps i d h hnull
    show (trainParams c u rest (oneBatchParamStep g c u ps)).getD i d = ps.getD i d
    have hlen : (oneBatchParamStep g c u ps).length = ps.length := by
      unfold oneBatchParamStep trainerUpdate clipGradGlobalNorm allreduceGrads backwardPass
      simp [mapWithIndex_length]
    have hstep : (oneBatchParamStep g c u ps).getD i d = ps.getD i d := by
      rw [oneBatchParamStep_getD _ _ _ _ _ _ h, if_pos hnull]
    rw [ih (oneBatchParamStep g c u ps) i d (by omega) (by rw [hstep]; exact hnull), hstep]

/-- Claim C5: fine-tuning updates exactly the parameters whose `grad_req`
is not `'null'`: those are collected into the clipped parameter list and
each trainer step updates their value from the clipped gradient, while a
parameter with `grad_req = 'null'` is excluded from the clipped list and
its value (and gradient) remain unchanged throughout training. -/
theorem differentiable_params_updated_null_params_frozen
    (c : Int → Int) (u : Int → Int → Int) (gs : List (Nat → Int))
    (ps : List Param) (i : Nat) (d : Param) (h : i < ps.length) :
    ((ps.getD i d).gradReq = "null" →
      (trainParams c u gs ps).getD i d = ps.getD i d ∧
      ps.getD i d ∉ collectDifferentiable ps) ∧
    ((ps.getD i d).gradReq ≠ "null" →
      ps.getD i d ∈ collectDifferentiable ps ∧
      ∀ g, (oneBatchParamStep g c u ps).getD i d =
        { value := u (ps.getD i d).value (c (g i)),
          grad := c (g i),
          gradReq := (ps.getD i d).gradReq }) := by
  have hmem : ps.getD i d ∈ ps := by
    rw [List.getD_eq_getElem _ _ h]
    exact List.getElem_mem h
  constructor
  · intro hnull
    refine ⟨trainParams_null_unchanged c u gs ps i d h hnull, ?_⟩
    intro hin
    rw [collectDifferentiable, List.mem_filter] at hin
    simp only [Bool.not_eq_true', beq_eq_false_iff_ne, ne_eq] at hin
    exact hin.2 hnull
  · intro hnn
    constructor
    · rw [collectDifferentiable, List.mem_filter]
      exact ⟨hmem, by simpa using hnn⟩
    · intro g
      rw [oneBatchParamStep_getD _ _ _ _ _ _ h, if_neg hnn]

/-- Witness for C5 with two parameters, one frozen and one trainable:
with clipping map the identity and update `u v g = v - g`, after one step
with gradient 3, the frozen parameter is unchanged and the trainable one
moves from 7 to 4. -/
theorem differentiable_params_updated_null_params_frozen_witness :
    (trainParams (fun x => x) (fun a b => a - b) [fun _ => 3]
        [⟨5, 0, "null"⟩, ⟨7, 0, "write"⟩]).getD 0 ⟨0, 0, "x"⟩ = ⟨5, 0, "null"⟩ ∧
    (oneBatchParamStep (fun _ => 3) (fun x => x) (fun a b => a - b)
        [⟨5, 0, "null"⟩, ⟨7, 0, "write"⟩]).getD 1 ⟨0, 0, "x"⟩ = ⟨4, 3, "write"⟩ :=
  ⟨((differentiable_params_updated_null_params_frozen (fun x => x) (fun a b => a - b)
      [fun _ => 3] [⟨5, 0, "null"⟩, ⟨7, 0, "write"⟩] 0 ⟨0, 0, "x"⟩
      (by decide)).1 (by decide)).1,
   (((differentiable_params_updated_null_params_frozen (fun x => x) (fun a b => a - b)
      [fun _ => 3] [⟨5, 0, "null"⟩, ⟨7, 0, "write"⟩] 1 ⟨0, 0, "x"⟩
      (by decide)).2 (by decide)).2 (fun _ => 3)).trans (by decide)⟩

/-! ## The notebook's execution order

The cells run top to bottom: seeding (`np.random.seed(100)`,
`random.seed(100)`, `mx.random.seed(10000)`), then
`nlp.model.get_model('bert_12_768_12', ..., pretrained=True)`, the
classifier construction and initialization, the raw dataset load, the
dataset transform, the sampler, the data loader, the trainer, and finally
the training loop. -/

/-- The observable events of the notebook, in the order its cells perform
them. -/
inductive NotebookEvent where
  | seedNumpy (n : Nat)
  | seedRandom (n : Nat)
  | seedMxnet (n : Nat)
  | loadPretrainedModel
  | buildClassifier
  | initClassifierLayer
  | loadRawDataset
  | applyDatasetTransform
  | buildBatchSampler
  | buildDataLoader
  | createTrainer
  | trainStep (epoch batchId : Nat)
  deriving DecidableEq

/-- The fixed setup cells of the notebook, in source order. -/
def setupEvents : List NotebookEvent :=
  [NotebookEvent.seedNumpy 100, NotebookEvent.seedRandom 100,
   NotebookEvent.seedMxnet 10000,
   NotebookEvent.loadPretrainedModel, NotebookEvent.buildClassifier,
   NotebookEvent.initClassifierLayer, NotebookEvent.loadRawDataset,
   NotebookEvent.applyDatasetTransform, NotebookEvent.buildBatchSampler,
   NotebookEvent.buildDataLoader, NotebookEvent.createTrainer]

/-- The full notebook trace: the setup cells followed by one training
step per `(epoch, batch)` pair processed by the loop. -/
def notebookTrace (steps : List (Nat × Nat)) : List NotebookEvent :=
  setupEvents ++ steps.map (fun s => NotebookEvent.trainStep s.1 s.2)

theorem notebookTrace_getD_setup (steps : List (Nat × Nat)) (k : Nat)
    (d : NotebookEvent) (h : k < 11) :
    (notebookTrace steps).getD k d = setupEvents.getD k d := by
  unfold notebookTrace
  exact List.getD_append _ _ _ _ (by simp [setupEvents]; omega)

/-- Claim C1: the pipeline stages are ordered — the pre-trained model is
loaded (position 3 of the trace) strictly before the dataset transform is
applied (position 7), and every training step of the loop occurs strictly
after both. -/
theorem pipeline_stage_order (steps : List (Nat × Nat)) :
    (notebookTrace steps).getD 3 (NotebookEvent.seedNumpy 0) =
      NotebookEvent.loadPretrainedModel ∧
    (notebookTrace steps).getD 7 (NotebookEvent.seedNumpy 0) =
      NotebookEvent.applyDatasetTransform ∧
    (3 : Nat) < 7 ∧
    (∀ k e b, (notebookTrace steps).getD k (NotebookEvent.seedNumpy 0) =
      NotebookEvent.trainStep e b → 7 < k) := by
  refine ⟨?_, ?_, by omega, ?_⟩
  · rw [notebookTrace_getD_setup _ _ _ (by omega)]; rfl
  · rw [notebookTrace_getD_setup _ _ _ (by omega)]; rfl
  · intro k e b hk
    by_contra hlt
    push_neg at hlt
    rw [notebookTrace_getD_setup _ _ _ (by omega)] at hk
    interval_cases k <;>
      simp only [setupEvents, List.getD_cons_zero, List.getD_cons_succ] at hk <;>
      exact NotebookEvent.noConfusion hk

/-- Witness for C1: in a run with a single training step, that step sits
at position 11, after model loading and the transform. -/
theorem pipeline_stage_order_witness :
    (notebookTrace [(0, 0)]).getD 11 (NotebookEvent.seedNumpy 0) =
      NotebookEvent.trainStep 0 0 ∧ 7 < 11 :=
  ⟨by decide, (pipeline_stage_order [(0, 0)]).2.2.2 11 0 0 (by decide)⟩

/-! ## Seeding and determinism -/

/-- `np.random.seed(100)`. -/
def np_seed : Nat := 100

/-- `random.seed(100)`. -/
def py_seed : Nat := 100

/-- `mx.random.seed(10000)`. -/
def mx_seed : Nat := 10000

/-- The outcome of one run of the notebook's data pipeline: the event
trace, the transformed dataset, and the order in which the (shuffled)
batch sampler visits the sample indices. -/
structure NotebookRun where
  trace : List NotebookEvent
  transformed : List (List Nat × Nat × List Nat × Int)
  sampleOrder : List Nat

/-- One run of the notebook pipeline.  `shuffle` is the framework's
PRNG-driven shuffling routine, a deterministic function of the seed it
was given; the run sets the three seeds first, so the sampler consumes
`mx_seed` and the transform is a pure function of the raw data. -/
def runNotebook (shuffle : Nat → List Nat → List Nat) (v : Vocab)
    (tok : Tokenizer) (raw : List (String × String × String))
    (steps : List (Nat × Nat)) : NotebookRun :=
  let transformed := raw.map (bertDatasetTransform v tok max_len all_labels)
  { trace := notebookTrace steps,
    transformed := transformed,
    sampleOrder := shuffle mx_seed (List.range transformed.length) }

/-- Claim C9: the three random seeds (numpy 100, python 100, mxnet 10000)
are the first three events of the trace, every model-loading, transform,
sampler-construction or training event occurs strictly after them, and
the pipeline is deterministic as a two-run property: two runs on the same
dataset produce identical transformed examples and identical batch
orderings. -/
theorem seeds_first_and_two_run_determinism
    (shuffle : Nat → List Nat → List Nat) (v : Vocab) (tok : Tokenizer)
    (raw : List (String × String × String)) (steps : List (Nat × Nat))
    (r1 r2 : NotebookRun)
    (h1 : r1 = runNotebook shuffle v tok raw steps)
    (h2 : r2 = runNotebook shuffle v tok raw steps) :
    r1.transformed = r2.transformed ∧
    r1.sampleOrder = r2.sampleOrder ∧
    r1.trace.getD 0 NotebookEvent.loadPretrainedModel =
      NotebookEvent.seedNumpy np_seed ∧
    r1.trace.getD 1 NotebookEvent.loadPretrainedModel =
      NotebookEvent.seedRandom py_seed ∧
    r1.trace.getD 2 NotebookEvent.loadPretrainedModel =
      NotebookEvent.seedMxnet mx_seed ∧
    (∀ k, (r1.trace.getD k (NotebookEvent.seedNumpy 0) =
              NotebookEvent.loadPretrainedModel ∨
           r1.trace.getD k (NotebookEvent.seedNumpy 0) =
              NotebookEvent.applyDatasetTransform ∨
           r1.trace.getD k (NotebookEvent.seedNumpy 0) =
              NotebookEvent.buildBatchSampler ∨
           (∃ e b, r1.trace.getD k (NotebookEvent.seedNumpy 0) =
              NotebookEvent.trainStep e b)) → 2 < k) := by
  subst h1 h2
  refine ⟨rfl, rfl, ?_, ?_, ?_, ?_⟩
  · exact notebookTrace_getD_setup steps 0 _ (by omega)
  · exact notebookTrace_getD_setup steps 1 _ (by omega)
  · exact notebookTrace_getD_setup steps 2 _ (by omega)
  · intro k hk
    by_contra hlt
    push_neg at hlt
    rw [show (runNotebook shuffle v tok raw steps).trace = notebookTrace steps
        from rfl] at hk
    rw [notebookTrace_getD_setup _ _ _ (by omega)] at hk
    interval_cases k <;>
      simp only [setupEvents, List.getD_cons_zero, List.getD_cons_succ] at hk <;>
      rcases hk with hk | hk | hk | ⟨e, b, hk⟩ <;>
      exact NotebookEvent.noConfusion hk

/-- Witness for C9: two concrete identical runs coincide, and the model
load at position 3 is after the seeds. -/
theorem seeds_first_and_two_run_determinism_witness :
    (runNotebook (fun _ l => l.reverse) sampleVocab sampleTokenizer
        [("a", "b", "1")] [(0, 0)]).transformed =
      (runNotebook (fun _ l => l.reverse) sampleVocab sampleTokenizer
        [("a", "b", "1")] [(0, 0)]).transformed ∧
    (2 : Nat) < 3 :=
  ⟨(seeds_first_and_two_run_determinism (fun _ l => l.reverse) sampleVocab
      sampleTokenizer [("a", "b", "1")] [(0, 0)] _ _ rfl rfl).1,
   (seeds_first_and_two_run_determinism (fun _ l => l.reverse) sampleVocab
      sampleTokenizer [("a", "b", "1")] [(0, 0)] _ _ rfl rfl).2.2.2.2.2 3
      (Or.inl (by decide))⟩

/-! ## The per-batch trainer step (operation order) -/

/-- The operations the training loop can perform for one batch. -/
inductive StepOp where
  | forwardAndMeanLoss (recorded : Bool)
  | backwardOp
  | allreduceOp
  | clipGlobalNormOp (maxNorm : Nat)
  | updateOp (rescale : Nat)
  deriving DecidableEq

/-- The body of the training loop for one batch, in source order: forward
computation of the model output and the mean softmax cross-entropy loss
inside `mx.autograd.record()`, then `ls.backward()`, then
`trainer.allreduce_grads()`, then
`nlp.utils.clip_grad_global_norm(params, 1)`, then `trainer.update(1)`. -/
def batchStepOps : List StepOp :=
  [StepOp.forwardAndMeanLoss true, StepOp.backwardOp, StepOp.allreduceOp,
   StepOp.clipGlobalNormOp 1, StepOp.updateOp 1]

/-- The training loop performs exactly one trainer step per batch drawn
from the data loader. -/
def trainLoopOps {β : Type} (batches : List β) : List (List StepOp) :=
  batches.map (fun _ => batchStepOps)

/-- Claim C2: for every batch drawn from the data loader, exactly one
trainer step is performed, consisting of, in this order: recorded forward
+ mean loss (position 0), backward (position 1), gradient all-reduce
(position 2), clipping to global norm at most 1 (position 3), and the
trainer update with rescale factor 1 (position 4); so clipping happens
after backward and before the update. -/
theorem trainer_step_operation_order {β : Type} (batches : List β) :
    (trainLoopOps batches).length = batches.length ∧
    ∀ ops ∈ trainLoopOps batches,
      ops = [StepOp.forwardAndMeanLoss true, StepOp.backwardOp,
             StepOp.allreduceOp, StepOp.clipGlobalNormOp 1, StepOp.updateOp 1] ∧
      ops.getD 0 StepOp.backwardOp = StepOp.forwardAndMeanLoss true ∧
      ops.getD 1 (StepOp.updateOp 0) = StepOp.backwardOp ∧
      ops.getD 3 (StepOp.updateOp 0) = StepOp.clipGlobalNormOp 1 ∧
      ops.getD 4 StepOp.backwardOp = StepOp.updateOp 1 ∧
      (1 : Nat) < 3 ∧ (3 : Nat) < 4 := by
  refine ⟨by simp [trainLoopOps], ?_⟩
  intro ops hops
  rcases List.mem_map.mp hops with ⟨b, _, hb⟩
  subst hb
  exact ⟨rfl, rfl, rfl, rfl, rfl, by omega, by omega⟩

/-- Witness for C2 on a one-batch loader. -/
theorem trainer_step_operation_order_witness :
    batchStepOps ∈ trainLoopOps [0] ∧
    batchStepOps.getD 1 (StepOp.updateOp 0) = StepOp.backwardOp ∧
    batchStepOps.getD 3 (StepOp.updateOp 0) = StepOp.clipGlobalNormOp 1 ∧
    batchStepOps.getD 4 StepOp.backwardOp = StepOp.updateOp 1 :=
  ⟨by simp [trainLoopOps], by
    have h := (trainer_step_operation_order [0]).2 batchStepOps (by simp [trainLoopOps])
    exact ⟨h.2.2.1, h.2.2.2.1, h.2.2.2.2.1⟩⟩

/-! ## The training loop: epochs, metric resets and loss logging

```
log_interval = 4
num_epochs = 3
for epoch_id in range(num_epochs):
    metric.reset()
    step_loss = 0
    for batch_id, (...) in enumerate(bert_dataloader):
        ...
        step_loss += ls.asscalar()
        metric.update([label], [out])
        if (batch_id + 1) % (log_interval) == 0:
            print(... step_loss / log_interval ... metric.get()[1] ...)
            step_loss = 0
```
-/

/-- `log_interval = 4`. -/
def log_interval : Nat := 4

/-- `num_epochs = 3`. -/
def num_epochs : Nat := 3

/-- What one batch contributes to the loop state: the scalar mean loss of
the batch and the metric update (correctly predicted samples out of those
seen). -/
structure BatchOutcome where
  loss : ℚ
  correct : Nat
  seen : Nat
  deriving DecidableEq

/-- One line printed by the loop: the epoch, `batch_id + 1`,
`step_loss / log_interval`, and the accuracy metric's counters. -/
structure LogEntry where
  epoch : Nat
  batchNum : Nat
  meanLoss : ℚ
  metricCorrect : Nat
  metricSeen : Nat
  deriving DecidableEq

/-- The inner loop over the batches of one epoch, carrying `batch_id`,
the metric counters and `step_loss`, and emitting a log entry every
`log_interval` batches (after which `step_loss` is reset to 0). -/
def epochLoop (e : Nat) : Nat → Nat → Nat → ℚ → List BatchOutcome → List LogEntry
  | _, _, _, _, [] => []
  | bid, c, t, sl, b :: rest =>
    let c2 := c + b.correct
    let t2 := t + b.seen
    let sl2 := sl + b.loss
    if (bid + 1) % log_interval = 0 then
      ⟨e, bid + 1, sl2 / (log_interval : ℚ), c2, t2⟩ ::
        epochLoop e (bid + 1) c2 t2 0 rest
    else
      epochLoop e (bid + 1) c2 t2 sl2 rest

/-- One epoch: `metric.reset()` and `step_loss = 0` first, then the inner
loop from `batch_id = 0`. -/
def epochRun (e : Nat) (batches : List BatchOutcome) : List LogEntry :=
  epochLoop e 0 0 0 0 batches

/-- The whole loop: `for epoch_id in range(num_epochs)`, each epoch
iterating the data loader (whose batches for epoch `e` are `d e`). -/
def trainRun (d : Nat → List BatchOutcome) : List (List LogEntry) :=
  (List.range num_epochs).map (fun e => epochRun e (d e))

theorem epochLoop_chunk (e B c t : Nat) (b1 b2 b3 b4 : BatchOutcome)
    (r : List BatchOutcome) :
    epochLoop e (4 * B) c t 0 (b1 :: b2 :: b3 :: b4 :: r) =
      ⟨e, 4 * (B + 1),
        (0 + b1.loss + b2.loss + b3.loss + b4.loss) / (log_interval : ℚ),
        c + b1.correct + b2.correct + b3.correct + b4.correct,
        t + b1.seen + b2.seen + b3.seen + b4.seen⟩ ::
      epochLoop e (4 * (B + 1))
        (c + b1.correct + b2.correct + b3.correct + b4.correct)
        (t + b1.seen + b2.seen + b3.seen + b4.seen) 0 r := by
  simp only [epochLoop, log_interval]
  rw [if_neg (by omega : ¬(4 * B + 1) % 4 = 0)]
  rw [if_neg (by omega : ¬(4 * B + 1 + 1) % 4 = 0)]
  rw [if_neg (by omega : ¬(4 * B + 1 + 1 + 1) % 4 = 0)]
  rw [if_pos (by omega : (4 * B + 1 + 1 + 1 + 1) % 4 = 0)]
  rw [show 4 * B + 1 + 1 + 1 + 1 = 4 * (B + 1) from by ring]

theorem drop_add_four {α : Type} (a b c d : α) (l : List α) (n : Nat) :
    (a :: b :: c :: d :: l).drop (n + 4) = l.drop n := rfl

theorem take_add_four {α : Type} (a b c d : α) (l : List α) (n : Nat) :
    (a :: b :: c :: d :: l).take (n + 4) = a :: b :: c :: d :: l.take n := rfl

theorem epochLoop_getD :
    ∀ (k : Nat) (r : List BatchOutcome) (e B c t : Nat),
      4 * (k + 1) ≤ r.length →
      (epochLoop e (4 * B) c t 0 r).getD k ⟨0, 0, 0, 0, 0⟩ =
        ⟨e, 4 * B + 4 * (k + 1),
          (((r.drop (4 * k)).take 4).map BatchOutcome.loss).sum / (log_interval : ℚ),
          c + (((r.take (4 * (k + 1))).map BatchOutcome.correct).sum),
          t + (((r.take (4 * (k + 1))).map BatchOutcome.seen).sum)⟩ := by
  intro k
  induction k with
  | zero =>
    intro r e B c t h
    match r, h with
    | b1 :: b2 :: b3 :: b4 :: rest, h =>
      rw [epochLoop_chunk]
      simp only [List.getD_cons_zero]
      have htake : (b1 :: b2 :: b3 :: b4 :: rest).take (4 * (0 + 1)) =
          [b1, b2, b3, b4] := by
        rw [show (4 : Nat) * (0 + 1) = 0 + 4 from by ring, take_add_four,
          List.take_zero]
      have htake4 : (List.drop (4 * 0) (b1 :: b2 :: b3 :: b4 :: rest)).take 4 =
          [b1, b2, b3, b4] := by
        rw [show (4 : Nat) * 0 = 0 from by ring, List.drop_zero,
          show (4 : Nat) = 0 + 4 from rfl, take_add_four, List.take_zero]
      rw [htake, htake4]
      simp only [List.map_cons, List.map_nil, List.sum_cons, List.sum_nil,
        LogEntry.mk.injEq]
      refine ⟨by trivial, by omega, by ring, by omega, by omega⟩
  | succ k ih =>
    intro r e B c t h
    match r, h with
    | b1 :: b2 :: b3 :: b4 :: rest, h =>
      rw [epochLoop_chunk]
      rw [List.getD_cons_succ]
      have hrest : 4 * (k + 1) ≤ rest.length := by
        simp only [List.length_cons] at h
        omega
      rw [ih rest e (B + 1) _ _ hrest]
      have hdrop : (b1 :: b2 :: b3 :: b4 :: rest).drop (4 * (k + 1)) =
          rest.drop (4 * k) := by
        rw [show (4 : Nat) * (k + 1) = 4 * k + 4 from by ring, drop_add_four]
      have htake : (b1 :: b2 :: b3 :: b4 :: rest).take (4 * (k + 1 + 1)) =
          b1 :: b2 :: b3 :: b4 :: rest.take (4 * (k + 1)) := by
        rw [show (4 : Nat) * (k + 1 + 1) = 4 * (k + 1) + 4 from by ring,
          take_add_four]
      rw [hdrop, htake]
      simp only [List.map_cons, List.sum_cons, LogEntry.mk.injEq]
      refine ⟨by trivial, by omega, by trivial, by omega, by omega⟩

/-- Claim C10: the loop runs exactly `num_epochs = 3` passes over the
data loader; epoch `e`'s logs are computed from epoch `e`'s batches alone
(the metric counters are reset at every epoch start, so the `k`-th logged
metric value counts exactly the first `4 * (k+1)` batches of the current
epoch), and since `step_loss` is reset at every epoch start and after
every log, the `k`-th logged loss of an epoch is the mean loss of exactly
the most recent `log_interval = 4` batches. -/
theorem training_loop_three_epochs_and_logging (d : Nat → List BatchOutcome) :
    (trainRun d).length = num_epochs ∧
    num_epochs = 3 ∧
    (∀ e, e < num_epochs → (trainRun d).getD e [] = epochRun e (d e)) ∧
    (∀ e k, e < num_epochs → 4 * (k + 1) ≤ (d e).length →
      ((trainRun d).getD e []).getD k ⟨0, 0, 0, 0, 0⟩ =
        ⟨e, 4 * (k + 1),
          ((((d e).drop (4 * k)).take 4).map BatchOutcome.loss).sum /
            (log_interval : ℚ),
          (((d e).take (4 * (k + 1))).map BatchOutcome.correct).sum,
          (((d e).take (4 * (k + 1))).map BatchOutcome.seen).sum⟩) := by
  have hget : ∀ e, e < num_epochs → (trainRun d).getD e [] = epochRun e (d e) := by
    intro e he
    unfold trainRun
    rw [List.getD_eq_getElem _ _ (by simpa [num_epochs] using he)]
    simp
  refine ⟨by simp [trainRun], rfl, hget, ?_⟩
  intro e k he hk
  rw [hget e he]
  unfold epochRun
  have h0 : (0 : Nat) = 4 * 0 := by omega
  rw [h0, epochLoop_getD k (d e) e 0 0 0 hk]
  simp only [LogEntry.mk.injEq]
  refine ⟨by trivial, by omega, by trivial, by omega, by omega⟩

/-- Concrete per-epoch batch data for the C10 witness: every epoch yields
four batches, each with mean loss 1 and metric update 2-of-3. -/
def sampleEpochData : Nat → List BatchOutcome :=
  fun _ => [⟨1, 2, 3⟩, ⟨1, 2, 3⟩, ⟨1, 2, 3⟩, ⟨1, 2, 3⟩]

/-- Witness for C10: in epoch 0, the first logged line is batch 4 with
mean loss `(1+1+1+1)/4 = 1` and metric counters `8/12`. -/
theorem training_loop_three_epochs_and_logging_witness :
    ((trainRun sampleEpochData).getD 0 []).getD 0 ⟨0, 0, 0, 0, 0⟩ =
      ⟨0, 4, 1, 8, 12⟩ :=
  ((training_loop_three_epochs_and_logging sampleEpochData).2.2.2 0 0
    (by decide) (by decide)).trans
    (by norm_num [sampleEpochData, log_interval, LogEntry.mk.injEq])

end KDD19Bert
